import Mathlib

/-!
Verification development for the wellness-wizard (FitTracker) repository.

The persistence layer (src/server/storage.ts) is embedded shallowly: the
relational store becomes a `Storage` record of row lists plus the serial-id
counters, and every data-access method becomes a pure function that threads
the `Storage` value explicitly.  Timestamps are integers, SQL decimal
columns are rationals, nullable columns are `Option` types.  The client
side set-editing helper `removeSet` (src/unnamed/part_004) is embedded as a
pure list function.
-/

/-- Timestamps (JS `Date` values / SQL `timestamp` columns) are modelled as
integers. -/
abbrev Timestamp := Int

/-- Row of the `workouts` table (src/shared/schema.ts). -/
structure Workout where
  id : Nat
  userId : Nat
  planId : Option Nat
  planDayId : Option Nat
  type : String
  workoutType : String
  duration : Nat
  distance : Option ℚ
  caloriesBurned : Option Nat
  notes : Option String
  tags : Option (List String)
  date : Timestamp
  createdAt : Timestamp
deriving DecidableEq

/-- Row of the `exercises` table (src/shared/schema.ts). -/
structure Exercise where
  id : Nat
  workoutId : Nat
  name : String
  category : Option String
  notes : Option String
  createdAt : Timestamp
deriving DecidableEq

/-- Row of the `sets` table (src/shared/schema.ts).  The source always
writes a boolean into the `isWarmup` column, so it is modelled as `Bool`. -/
structure SetRow where
  id : Nat
  exerciseId : Nat
  setNumber : Nat
  reps : Nat
  weight : Option ℚ
  isWarmup : Bool
  restTime : Option Nat
  rpe : Option Nat
  createdAt : Timestamp
deriving DecidableEq

/-- Row of the `meals` table (src/shared/schema.ts). -/
structure Meal where
  id : Nat
  userId : Nat
  type : String
  foodItems : String
  calories : Nat
  protein : Option ℚ
  carbs : Option ℚ
  fat : Option ℚ
  notes : Option String
  date : Timestamp
  createdAt : Timestamp
deriving DecidableEq

/-- Row of the `workout_plans` table (src/shared/schema.ts). -/
structure WorkoutPlan where
  id : Nat
  userId : Nat
  name : String
  description : Option String
  daysPerWeek : Nat
  currentDayIndex : Nat
  lastWorkoutDate : Option Timestamp
  isActive : Bool
  createdAt : Timestamp
deriving DecidableEq

/-- Row of the `workout_plan_days` table (src/shared/schema.ts).  The
flexible jsonb `exercises` payload is modelled opaquely as a string. -/
structure WorkoutPlanDay where
  id : Nat
  planId : Nat
  dayIndex : Nat
  name : String
  description : Option String
  muscleGroups : Option (List String)
  exercisesJson : Option String
  restDay : Bool
deriving DecidableEq

/-- The relational store: one list per table relevant to the verified
operations, plus the serial-id counter of each table. -/
structure Storage where
  workouts : List Workout
  exercises : List Exercise
  sets : List SetRow
  meals : List Meal
  workoutPlans : List WorkoutPlan
  workoutPlanDays : List WorkoutPlanDay
  nextWorkoutId : Nat
  nextExerciseId : Nat
  nextSetId : Nat
  nextMealId : Nat
  nextPlanId : Nat
  nextPlanDayId : Nat
deriving DecidableEq

/-- An empty store with all serial counters at 1 (Postgres serial columns
start at 1). -/
def emptyStorage : Storage :=
  { workouts := [], exercises := [], sets := [], meals := [],
    workoutPlans := [], workoutPlanDays := [],
    nextWorkoutId := 1, nextExerciseId := 1, nextSetId := 1,
    nextMealId := 1, nextPlanId := 1, nextPlanDayId := 1 }

/-- Insert payload for a workout plan (`insertWorkoutPlanSchema` omits id,
userId and createdAt; columns with database defaults are optional). -/
structure InsertWorkoutPlan where
  name : String
  description : Option String
  daysPerWeek : Nat
  currentDayIndex : Option Nat
  lastWorkoutDate : Option Timestamp
  isActive : Option Bool
deriving DecidableEq

/-- Insert payload for a plan day (`insertWorkoutPlanDaySchema` omits only
the id; `planId` and `dayIndex` are overwritten by `createWorkoutPlan`). -/
structure InsertWorkoutPlanDay where
  planId : Nat
  dayIndex : Nat
  name : String
  description : Option String
  muscleGroups : Option (List String)
  exercisesJson : Option String
  restDay : Option Bool
deriving DecidableEq

/-- Embeds `daysWithPlanId = days.map((day, index) => ({...day, planId, dayIndex: index}))`
followed by the batch insert of storage.ts createWorkoutPlan: the database
assigns consecutive serial ids, and the map assigns `dayIndex` = position
in the supplied list, overriding the caller-supplied `planId`/`dayIndex`. -/
def insertPlanDays (planId : Nat) : List InsertWorkoutPlanDay → Nat → Nat → List WorkoutPlanDay
  | [], _, _ => []
  | d :: rest, nextId, index =>
    { id := nextId, planId := planId, dayIndex := index, name := d.name,
      description := d.description, muscleGroups := d.muscleGroups,
      exercisesJson := d.exercisesJson, restDay := d.restDay.getD false }
      :: insertPlanDays planId rest (nextId + 1) (index + 1)

/-- Embeds `DatabaseStorage.createWorkoutPlan` (src/server/storage.ts):
first deactivates every currently active plan of the user, then inserts the
new plan (database defaults: currentDayIndex 0, isActive true), then
inserts the day rows with positional `dayIndex`.  Returns the created plan,
the created day rows, and the new store. -/
def createWorkoutPlan (σ : Storage) (userId : Nat) (plan : InsertWorkoutPlan)
    (days : List InsertWorkoutPlanDay) (now : Timestamp) :
    (WorkoutPlan × List WorkoutPlanDay) × Storage :=
  let deactivated := σ.workoutPlans.map (fun p =>
    if p.userId == userId && p.isActive then { p with isActive := false } else p)
  let newPlan : WorkoutPlan :=
    { id := σ.nextPlanId, userId := userId, name := plan.name,
      description := plan.description, daysPerWeek := plan.daysPerWeek,
      currentDayIndex := plan.currentDayIndex.getD 0,
      lastWorkoutDate := plan.lastWorkoutDate,
      isActive := plan.isActive.getD true, createdAt := now }
  let newDays := insertPlanDays newPlan.id days σ.nextPlanDayId 0
  ((newPlan, newDays),
   { σ with workoutPlans := deactivated ++ [newPlan],
            workoutPlanDays := σ.workoutPlanDays ++ newDays,
            nextPlanId := σ.nextPlanId + 1,
            nextPlanDayId := σ.nextPlanDayId + days.length })

/-- Embeds `DatabaseStorage.advanceWorkoutPlan` (src/server/storage.ts):
loads the plan scoped to (planId, userId) (a `.limit(1)` select, i.e. the
first matching row); silently returns on absence; otherwise counts the
day rows of the plan (their dayIndex ordering does not affect the count)
and updates the row with the given id to the wrapped next index and the
current time.  The final update of the source is scoped by plan id only,
exactly as here. -/
def advanceWorkoutPlan (σ : Storage) (userId planId : Nat) (now : Timestamp) : Storage :=
  match (σ.workoutPlans.filter (fun p => p.id == planId && p.userId == userId)).head? with
  | none => σ
  | some p =>
    let days := σ.workoutPlanDays.filter (fun d => d.planId == planId)
    let nextDayIndex := (p.currentDayIndex + 1) % days.length
    { σ with workoutPlans := σ.workoutPlans.map (fun q =>
        if q.id == planId then
          { q with currentDayIndex := nextDayIndex, lastWorkoutDate := some now }
        else q) }

/- Concrete plan-engine fixtures used by the example clauses of C1. -/

/-- A three day plan for user 1 whose cursor starts at the given index. -/
def c1Plan (idx : Nat) : WorkoutPlan :=
  { id := 5, userId := 1, name := "PPL", description := none, daysPerWeek := 3,
    currentDayIndex := idx, lastWorkoutDate := none, isActive := true, createdAt := 0 }

/-- Day row number `n` (0-based) of the three day plan. -/
def c1Day (n : Nat) : WorkoutPlanDay :=
  { id := n + 1, planId := 5, dayIndex := n, name := "Day", description := none,
    muscleGroups := none, exercisesJson := none, restDay := false }

/-- Store holding the three day plan with cursor at `idx`. -/
def c1Storage (idx : Nat) : Storage :=
  { emptyStorage with
      workoutPlans := [c1Plan idx],
      workoutPlanDays := [c1Day 0, c1Day 1, c1Day 2],
      nextPlanId := 6, nextPlanDayId := 4 }

/-- C1: for every plan owned by (userId, planId) with at least one day,
advanceWorkoutPlan sets currentDayIndex of the plan row to
(currentDayIndex + 1) mod dayCount and lastWorkoutDate to the current
time; a 3 day plan with cursor 2 wraps to 0 after one advance, and three
consecutive advances from cursor 0 return the cursor to 0. -/
theorem advanceWorkoutPlan_wraps (σ : Storage) (userId planId : Nat)
    (now : Timestamp) (p : WorkoutPlan)
    (hfind : (σ.workoutPlans.filter
      (fun q => q.id == planId && q.userId == userId)).head? = some p)
    (hdays : 0 < (σ.workoutPlanDays.filter (fun d => d.planId == planId)).length) :
    (advanceWorkoutPlan σ userId planId now).workoutPlans
      = σ.workoutPlans.map (fun q =>
          if q.id == planId then
            { q with
                currentDayIndex := (p.currentDayIndex + 1) %
                  (σ.workoutPlanDays.filter (fun d => d.planId == planId)).length,
                lastWorkoutDate := some now }
          else q)
    ∧ ((advanceWorkoutPlan (c1Storage 2) 1 5 77).workoutPlans.map
        (fun q => (q.currentDayIndex, q.lastWorkoutDate))) = [(0, some 77)]
    ∧ ((advanceWorkoutPlan (advanceWorkoutPlan
          (advanceWorkoutPlan (c1Storage 0) 1 5 11) 1 5 12) 1 5 13).workoutPlans.map
        (fun q => q.currentDayIndex)) = [0] := by
  refine ⟨?_, by decide, by decide⟩
  unfold advanceWorkoutPlan
  rw [hfind]

/-- Witness for C1 at the concrete three day store with cursor 2. -/
theorem advanceWorkoutPlan_wraps_witness :
    (advanceWorkoutPlan (c1Storage 2) 1 5 77).workoutPlans
      = (c1Storage 2).workoutPlans.map (fun q =>
          if q.id == 5 then
            { q with
                currentDayIndex := ((c1Plan 2).currentDayIndex + 1) %
                  ((c1Storage 2).workoutPlanDays.filter (fun d => d.planId == 5)).length,
                lastWorkoutDate := some 77 }
          else q) :=
  (advanceWorkoutPlan_wraps (c1Storage 2) 1 5 77 (c1Plan 2) (by decide) (by decide)).1

/-- C5: advanceWorkoutPlan for a (userId, planId) pair matching no stored
plan performs no state change at all and returns normally. -/
theorem advanceWorkoutPlan_absent_noop (σ : Storage) (userId planId : Nat)
    (now : Timestamp)
    (habsent : ∀ p ∈ σ.workoutPlans, ¬(p.id = planId ∧ p.userId = userId)) :
    advanceWorkoutPlan σ userId planId now = σ := by
  unfold advanceWorkoutPlan
  have hfilter : σ.workoutPlans.filter
      (fun p => p.id == planId && p.userId == userId) = [] := by
    refine List.filter_eq_nil_iff.mpr (fun p hp => ?_)
    have := habsent p hp
    simp only [Bool.and_eq_true, beq_iff_eq]
    exact fun h => this ⟨h.1, h.2⟩
  rw [hfilter]
  rfl

/-- Witness for C5: advancing a plan id that does not exist in a concrete
store is the identity. -/
theorem advanceWorkoutPlan_absent_noop_witness :
    advanceWorkoutPlan (c1Storage 2) 1 99 77 = c1Storage 2 :=
  advanceWorkoutPlan_absent_noop (c1Storage 2) 1 99 77 (by decide)

/- Claim C3: the single-active-plan invariant on plan creation. -/

/-- A pre-existing active plan A of user 1. -/
def c3PriorPlan : WorkoutPlan :=
  { id := 1, userId := 1, name := "A", description := none, daysPerWeek := 3,
    currentDayIndex := 0, lastWorkoutDate := none, isActive := true, createdAt := 0 }

/-- Store holding only the active plan A of user 1. -/
def c3Storage : Storage :=
  { emptyStorage with workoutPlans := [c3PriorPlan], nextPlanId := 2 }

/-- Plan payload that explicitly sets isActive to false; the insert schema
of src/shared/schema.ts keeps the isActive column (it only omits id,
userId and createdAt), so such a payload reaches the insert unchanged. -/
def c3InactivePayload : InsertWorkoutPlan :=
  { name := "B", description := none, daysPerWeek := 4,
    currentDayIndex := none, lastWorkoutDate := none, isActive := some false }

/-- Counterexample to C3 as stated: creating plan B for user 1 (who has an
active plan A) with a payload carrying isActive = false yields a newly
created plan that is NOT active, and afterward no plan of the user is
active at all — refuting that the new plan is active and that exactly one
plan has isActive = true. -/
theorem createWorkoutPlan_inactive_payload_counterexample :
    ((createWorkoutPlan c3Storage 1 c3InactivePayload [] 10).1.1).isActive = false
    ∧ ((createWorkoutPlan c3Storage 1 c3InactivePayload [] 10).2.workoutPlans.filter
        (fun q => q.userId == 1 && q.isActive)).length = 0 := by
  decide

/-- C3 (amended): provided the supplied plan attributes do not explicitly
set isActive to false (the column defaults to true), createWorkoutPlan
deactivates every previously active plan of the user and inserts the new
plan, so that afterward the newly created plan is active and it is the one
and only plan of that user with isActive = true. -/
theorem createWorkoutPlan_single_active (σ : Storage) (userId : Nat)
    (plan : InsertWorkoutPlan) (days : List InsertWorkoutPlanDay) (now : Timestamp)
    (hactive : plan.isActive ≠ some false) :
    ((createWorkoutPlan σ userId plan days now).1.1).isActive = true
    ∧ ((createWorkoutPlan σ userId plan days now).2.workoutPlans.filter
        (fun q => q.userId == userId && q.isActive))
      = [(createWorkoutPlan σ userId plan days now).1.1] := by
  have hdef : plan.isActive.getD true = true := by
    cases h : plan.isActive with
    | none => rfl
    | some b =>
      cases b with
      | false => exact absurd h hactive
      | true => rfl
  constructor
  · simp [createWorkoutPlan, hdef]
  · unfold createWorkoutPlan
    simp only [List.filter_append]
    have hleft : (σ.workoutPlans.map (fun p =>
        if p.userId == userId && p.isActive then { p with isActive := false } else p)).filter
          (fun q => q.userId == userId && q.isActive) = [] := by
      refine List.filter_eq_nil_iff.mpr (fun q hq => ?_)
      rcases List.mem_map.mp hq with ⟨p, _, rfl⟩
      by_cases hcase : (p.userId == userId && p.isActive) = true
      · rw [if_pos hcase]
        simp
      · rw [if_neg hcase]
        exact fun h => hcase h
    rw [hleft]
    simp [hdef]

/-- Witness for C3 (amended): creating plan B with a default-active payload
over a store holding active plan A leaves exactly the new plan active. -/
theorem createWorkoutPlan_single_active_witness :
    ((createWorkoutPlan c3Storage 1
        { name := "B", description := none, daysPerWeek := 4,
          currentDayIndex := none, lastWorkoutDate := none, isActive := none }
        [] 10).1.1).isActive = true
    ∧ ((createWorkoutPlan c3Storage 1
        { name := "B", description := none, daysPerWeek := 4,
          currentDayIndex := none, lastWorkoutDate := none, isActive := none }
        [] 10).2.workoutPlans.filter (fun q => q.userId == 1 && q.isActive))
      = [(createWorkoutPlan c3Storage 1
          { name := "B", description := none, daysPerWeek := 4,
            currentDayIndex := none, lastWorkoutDate := none, isActive := none }
          [] 10).1.1] :=
  createWorkoutPlan_single_active c3Storage 1
    { name := "B", description := none, daysPerWeek := 4,
      currentDayIndex := none, lastWorkoutDate := none, isActive := none }
    [] 10 (by decide)

/- Claim C4: positional day indices on plan creation. -/

/-- Auxiliary: the day rows produced by insertPlanDays carry consecutive
dayIndex values starting from the given index. -/
theorem insertPlanDays_dayIndex (planId : Nat) :
    ∀ (l : List InsertWorkoutPlanDay) (nextId index : Nat),
      (insertPlanDays planId l nextId index).map (fun d => d.dayIndex)
        = List.range' index l.length := by
  intro l
  induction l with
  | nil => intro nextId index; rfl
  | cons d rest ih =>
    intro nextId index
    simp [insertPlanDays, List.range', ih rest.length]
    exact ih (nextId + 1) (index + 1)

/-- Auxiliary: insertPlanDays keeps the supplied names in order. -/
theorem insertPlanDays_name (planId : Nat) :
    ∀ (l : List InsertWorkoutPlanDay) (nextId index : Nat),
      (insertPlanDays planId l nextId index).map (fun d => d.name)
        = l.map (fun d => d.name) := by
  intro l
  induction l with
  | nil => intro nextId index; rfl
  | cons d rest ih =>
    intro nextId index
    simp [insertPlanDays]
    exact ih (nextId + 1) (index + 1)

/-- Auxiliary: every day row produced by insertPlanDays points at the
created plan. -/
theorem insertPlanDays_planId (planId : Nat) :
    ∀ (l : List InsertWorkoutPlanDay) (nextId index : Nat),
      (insertPlanDays planId l nextId index).map (fun d => d.planId)
        = List.replicate l.length planId := by
  intro l
  induction l with
  | nil => intro nextId index; rfl
  | cons d rest ih =>
    intro nextId index
    simp [insertPlanDays, List.replicate]
    exact ih (nextId + 1) (index + 1)

/-- Day payloads named X, Y, Z whose caller-supplied planId (99) and
dayIndex (7) fields are junk that must be overridden. -/
def c4Days : List InsertWorkoutPlanDay :=
  [⟨99, 7, "X", none, none, none, none⟩,
   ⟨99, 7, "Y", none, none, none, none⟩,
   ⟨99, 7, "Z", none, none, none, none⟩]

/-- Plan payload for the C4 example. -/
def c4Payload : InsertWorkoutPlan :=
  { name := "Split", description := none, daysPerWeek := 3,
    currentDayIndex := none, lastWorkoutDate := none, isActive := none }

/-- C4: createWorkoutPlan stores the i-th supplied day specification with
dayIndex = i (its 0-based position), overriding any caller-supplied index,
keeps the supplied names in order, parents every day row to the new plan,
appends exactly these rows to the store, and returns them; days named
X, Y, Z (with junk input indices) are stored with dayIndex 0, 1, 2. -/
theorem createWorkoutPlan_positional_day_indices (σ : Storage) (userId : Nat)
    (plan : InsertWorkoutPlan) (days : List InsertWorkoutPlanDay) (now : Timestamp) :
    ((createWorkoutPlan σ userId plan days now).1.2).map (fun d => d.dayIndex)
      = List.range days.length
    ∧ ((createWorkoutPlan σ userId plan days now).1.2).map (fun d => d.name)
      = days.map (fun d => d.name)
    ∧ ((createWorkoutPlan σ userId plan days now).1.2).map (fun d => d.planId)
      = List.replicate days.length ((createWorkoutPlan σ userId plan days now).1.1).id
    ∧ (createWorkoutPlan σ userId plan days now).2.workoutPlanDays
      = σ.workoutPlanDays ++ (createWorkoutPlan σ userId plan days now).1.2
    ∧ ((createWorkoutPlan emptyStorage 1 c4Payload c4Days 0).1.2).map
        (fun d => (d.dayIndex, d.name)) = [(0, "X"), (1, "Y"), (2, "Z")] := by
  refine ⟨?_, ?_, ?_, rfl, by decide⟩
  · rw [List.range_eq_range']
    exact insertPlanDays_dayIndex σ.nextPlanId days σ.nextPlanDayId 0
  · exact insertPlanDays_name σ.nextPlanId days σ.nextPlanDayId 0
  · exact insertPlanDays_planId σ.nextPlanId days σ.nextPlanDayId 0

/- Workout composite writer (src/server/storage.ts createWorkout /
updateWorkout / deleteWorkout) and its insert payloads. -/

/-- Insert payload for a workout (`insertWorkoutSchema` omits id, userId
and createdAt; its zod extension makes `date` required; `workoutType` has
the database default "cardio"). -/
structure InsertWorkout where
  planId : Option Nat
  planDayId : Option Nat
  type : String
  workoutType : Option String
  duration : Nat
  distance : Option ℚ
  caloriesBurned : Option Nat
  notes : Option String
  tags : Option (List String)
  date : Timestamp
deriving DecidableEq

/-- Partial workout attributes for `updateWorkout`: the outer Option marks
whether the field is supplied at all, the inner Option of a nullable
column is the stored null. -/
structure WorkoutPatch where
  planId : Option (Option Nat)
  planDayId : Option (Option Nat)
  type : Option String
  workoutType : Option String
  duration : Option Nat
  distance : Option (Option ℚ)
  caloriesBurned : Option (Option Nat)
  notes : Option (Option String)
  tags : Option (Option (List String))
  date : Option Timestamp
deriving DecidableEq

/-- Embeds the drizzle `.update(workouts).set(workout)` semantics: each
supplied field overwrites the column, unsupplied fields are untouched. -/
def applyWorkoutPatch (patch : WorkoutPatch) (w : Workout) : Workout :=
  { w with
      planId := patch.planId.getD w.planId,
      planDayId := patch.planDayId.getD w.planDayId,
      type := patch.type.getD w.type,
      workoutType := patch.workoutType.getD w.workoutType,
      duration := patch.duration.getD w.duration,
      distance := patch.distance.getD w.distance,
      caloriesBurned := patch.caloriesBurned.getD w.caloriesBurned,
      notes := patch.notes.getD w.notes,
      tags := patch.tags.getD w.tags,
      date := patch.date.getD w.date }

/-- One set specification of the `exerciseData` request payload. -/
structure SetInput where
  setNumber : Nat
  reps : Nat
  weight : Option ℚ
  isWarmup : Option Bool
deriving DecidableEq

/-- One exercise specification of the `exerciseData` request payload. -/
structure ExerciseInput where
  name : String
  category : Option String
  sets : List SetInput
deriving DecidableEq

/-- Embeds the JS expression `value || null` on an optional string: an
absent value and the (falsy) empty string both become null. -/
def jsStringOrNull : Option String → Option String
  | none => none
  | some s => if s = "" then none else some s

/-- Embeds the inner loop `for (const setData of exerciseInput.sets)` of
createWorkout/updateWorkout: inserts one set row per specification
(setNumber and reps from the payload, weight kept as supplied, isWarmup
defaulted to false, restTime and rpe null), consuming consecutive serial
ids.  Returns the created rows and the next free set id. -/
def insertSets (exerciseId : Nat) (now : Timestamp) : List SetInput → Nat → List SetRow × Nat
  | [], nextSetId => ([], nextSetId)
  | s :: rest, nextSetId =>
    let row : SetRow :=
      { id := nextSetId, exerciseId := exerciseId, setNumber := s.setNumber,
        reps := s.reps, weight := s.weight, isWarmup := s.isWarmup.getD false,
        restTime := none, rpe := none, createdAt := now }
    let restResult := insertSets exerciseId now rest (nextSetId + 1)
    (row :: restResult.1, restResult.2)

/-- Embeds the outer loop `for (const exerciseInput of exerciseData)` of
createWorkout/updateWorkout: inserts one exercise row per specification
(category mapped through `|| null`, notes null) and then its set rows, in
the given order, consuming consecutive serial ids.  Returns the created
exercise rows, the created set rows, and the next free ids. -/
def insertExercises (workoutId : Nat) (now : Timestamp) :
    List ExerciseInput → Nat → Nat → List Exercise × List SetRow × Nat × Nat
  | [], nextExId, nextSetId => ([], [], nextExId, nextSetId)
  | e :: rest, nextExId, nextSetId =>
    let newExercise : Exercise :=
      { id := nextExId, workoutId := workoutId, name := e.name,
        category := jsStringOrNull e.category, notes := none, createdAt := now }
    let setsResult := insertSets nextExId now e.sets nextSetId
    let restResult := insertExercises workoutId now rest (nextExId + 1) setsResult.2
    (newExercise :: restResult.1, setsResult.1 ++ restResult.2.1,
     restResult.2.2.1, restResult.2.2.2)

/-- Embeds `DatabaseStorage.createWorkout` (src/server/storage.ts):
inserts the workout row; when the incoming workoutType is "strength" and
exercise data is supplied, additionally inserts the exercises with their
sets.  Returns the created workout row and the new store (the created
children are readable from the store). -/
def createWorkout (σ : Storage) (userId : Nat) (workout : InsertWorkout)
    (exerciseData : Option (List ExerciseInput)) (now : Timestamp) :
    Workout × Storage :=
  let newWorkout : Workout :=
    { id := σ.nextWorkoutId, userId := userId, planId := workout.planId,
      planDayId := workout.planDayId, type := workout.type,
      workoutType := workout.workoutType.getD ("cardio"),
      duration := workout.duration, distance := workout.distance,
      caloriesBurned := workout.caloriesBurned, notes := workout.notes,
      tags := workout.tags, date := workout.date, createdAt := now }
  let σ1 := { σ with workouts := σ.workouts ++ [newWorkout],
                     nextWorkoutId := σ.nextWorkoutId + 1 }
  match exerciseData with
  | some exData =>
    if workout.workoutType == some ("strength") then
      let created := insertExercises newWorkout.id now exData σ1.nextExerciseId σ1.nextSetId
      (newWorkout,
       { σ1 with exercises := σ1.exercises ++ created.1,
                 sets := σ1.sets ++ created.2.1,
                 nextExerciseId := created.2.2.1,
                 nextSetId := created.2.2.2 })
    else (newWorkout, σ1)
  | none => (newWorkout, σ1)

/-- Embeds `DatabaseStorage.updateWorkout` (src/server/storage.ts):
updates the row scoped to (id, userId) and returns an absence value when
nothing matches; when the incoming workoutType is "strength" and exercise
data is supplied, deletes all sets of the exercises currently owned by the
workout, deletes those exercises, and recreates exercises and sets from
the payload exactly as in createWorkout. -/
def updateWorkout (σ : Storage) (id userId : Nat) (patch : WorkoutPatch)
    (exerciseData : Option (List ExerciseInput)) (now : Timestamp) :
    Option Workout × Storage :=
  match (σ.workouts.filter (fun w => w.id == id && w.userId == userId)).head? with
  | none => (none, σ)
  | some w0 =>
    let updatedWorkout := applyWorkoutPatch patch w0
    let σ1 := { σ with workouts := σ.workouts.map (fun w =>
        if w.id == id && w.userId == userId then applyWorkoutPatch patch w else w) }
    match exerciseData with
    | some exData =>
      if patch.workoutType == some ("strength") then
        let existingIds := (σ1.exercises.filter (fun e => e.workoutId == id)).map
          (fun e => e.id)
        let keptSets := σ1.sets.filter (fun s => !(existingIds.contains s.exerciseId))
        let keptExercises := σ1.exercises.filter (fun e => !(e.workoutId == id))
        let created := insertExercises w0.id now exData σ1.nextExerciseId σ1.nextSetId
        (some updatedWorkout,
         { σ1 with exercises := keptExercises ++ created.1,
                   sets := keptSets ++ created.2.1,
                   nextExerciseId := created.2.2.1,
                   nextSetId := created.2.2.2 })
      else (some updatedWorkout, σ1)
    | none => (some updatedWorkout, σ1)

/-- Embeds `DatabaseStorage.deleteWorkout` (src/server/storage.ts) plus
the cascade rules of src/shared/schema.ts: the delete is scoped to
(id, userId); exercises of deleted workouts and sets of those exercises
are cascade-deleted; the returned flag is rowCount > 0. -/
def deleteWorkout (σ : Storage) (id userId : Nat) : Bool × Storage :=
  let removed := σ.workouts.filter (fun w => w.id == id && w.userId == userId)
  let removedIds := removed.map (fun w => w.id)
  let keptWorkouts := σ.workouts.filter (fun w => !(w.id == id && w.userId == userId))
  let removedExerciseIds := (σ.exercises.filter
    (fun e => removedIds.contains e.workoutId)).map (fun e => e.id)
  let keptExercises := σ.exercises.filter (fun e => !(removedIds.contains e.workoutId))
  let keptSets := σ.sets.filter (fun s => !(removedExerciseIds.contains s.exerciseId))
  (removed.length > 0,
   { σ with workouts := keptWorkouts, exercises := keptExercises, sets := keptSets })

/- Helper lemmas about the exercise/set insertion loops. -/

/-- Every set row created by insertSets points at the given exercise. -/
theorem insertSets_exerciseId (eid : Nat) (now : Timestamp) :
    ∀ (l : List SetInput) (nS : Nat),
      ∀ s ∈ (insertSets eid now l nS).1, s.exerciseId = eid := by
  intro l
  induction l with
  | nil => intro nS s hs; simp [insertSets] at hs
  | cons a rest ih =>
    intro nS s hs
    simp only [insertSets, List.mem_cons] at hs
    rcases hs with rfl | hs
    · rfl
    · exact ih (nS + 1) s hs

/-- The set rows created by insertSets carry the supplied setNumber, reps
and weight values in order. -/
theorem insertSets_payload (eid : Nat) (now : Timestamp) :
    ∀ (l : List SetInput) (nS : Nat),
      (insertSets eid now l nS).1.map (fun s => (s.setNumber, s.reps, s.weight))
        = l.map (fun s => (s.setNumber, s.reps, s.weight)) := by
  intro l
  induction l with
  | nil => intro nS; rfl
  | cons a rest ih =>
    intro nS
    simp only [insertSets, List.map_cons]
    rw [ih (nS + 1)]

/-- Every exercise row created by insertExercises belongs to the given
workout and has an id at least the starting counter. -/
theorem insertExercises_exercise_facts (wid : Nat) (now : Timestamp) :
    ∀ (l : List ExerciseInput) (nE nS : Nat),
      ∀ e ∈ (insertExercises wid now l nE nS).1, e.workoutId = wid ∧ nE ≤ e.id := by
  intro l
  induction l with
  | nil => intro nE nS e he; simp [insertExercises] at he
  | cons a rest ih =>
    intro nE nS e he
    simp only [insertExercises, List.mem_cons] at he
    rcases he with rfl | he
    · exact ⟨rfl, le_refl _⟩
    · have h := ih (nE + 1) (insertSets nE now a.sets nS).2 e he
      exact ⟨h.1, le_trans (Nat.le_succ nE) h.2⟩

/-- Every set row created by insertExercises points at an exercise id at
least the starting exercise counter. -/
theorem insertExercises_set_facts (wid : Nat) (now : Timestamp) :
    ∀ (l : List ExerciseInput) (nE nS : Nat),
      ∀ s ∈ (insertExercises wid now l nE nS).2.1, nE ≤ s.exerciseId := by
  intro l
  induction l with
  | nil => intro nE nS s hs; simp [insertExercises] at hs
  | cons a rest ih =>
    intro nE nS s hs
    simp only [insertExercises, List.mem_append] at hs
    rcases hs with hs | hs
    · exact le_of_eq (insertSets_exerciseId nE now a.sets nS s hs).symm
    · exact le_trans (Nat.le_succ nE)
        (ih (nE + 1) (insertSets nE now a.sets nS).2 s hs)

/-- Main correspondence: reading back, for each exercise row created by
insertExercises, the set rows pointing at it from the final sets table
(stale rows with smaller exercise ids plus the created rows) reproduces
exactly the supplied exercise/set specifications, names and set payloads
in order. -/
theorem insertExercises_report (wid : Nat) (now : Timestamp) :
    ∀ (l : List ExerciseInput) (nE nS : Nat) (base : List SetRow),
      (∀ s ∈ base, s.exerciseId < nE) →
      ((insertExercises wid now l nE nS).1).map (fun e =>
          (e.name, ((base ++ (insertExercises wid now l nE nS).2.1).filter
            (fun s => s.exerciseId == e.id)).map (fun s => (s.setNumber, s.reps, s.weight))))
        = l.map (fun e => (e.name, e.sets.map (fun s => (s.setNumber, s.reps, s.weight)))) := by
  intro l
  induction l with
  | nil => intro nE nS base hbase; simp [insertExercises]
  | cons a rest ih =>
    intro nE nS base hbase
    simp only [insertExercises, List.map_cons, List.filter_append]
    refine congrArg₂ List.cons ?_ ?_
    · -- head exercise: only its own freshly created sets survive the filter
      have hbase0 : base.filter (fun s => s.exerciseId == nE) = [] := by
        refine List.filter_eq_nil_iff.mpr (fun s hs => ?_)
        have := hbase s hs
        simp only [beq_iff_eq]
        omega
      have hown : (insertSets nE now a.sets nS).1.filter
          (fun s => s.exerciseId == nE) = (insertSets nE now a.sets nS).1 := by
        refine List.filter_eq_self.mpr (fun s hs => ?_)
        have := insertSets_exerciseId nE now a.sets nS s hs
        simp [this]
      have hrest : (insertExercises wid now rest (nE + 1)
            (insertSets nE now a.sets nS).2).2.1.filter
          (fun s => s.exerciseId == nE) = [] := by
        refine List.filter_eq_nil_iff.mpr (fun s hs => ?_)
        have := insertExercises_set_facts wid now rest (nE + 1)
          (insertSets nE now a.sets nS).2 s hs
        simp only [beq_iff_eq]
        omega
      rw [hbase0, hown, hrest]
      simp [insertSets_payload]
    · -- remaining exercises: induction hypothesis with the head sets folded
      -- into the stale base
      have hassoc : ∀ x : List SetRow,
          base ++ ((insertSets nE now a.sets nS).1 ++ x)
            = (base ++ (insertSets nE now a.sets nS).1) ++ x := by
        intro x
        rw [List.append_assoc]
      have hbase2 : ∀ s ∈ base ++ (insertSets nE now a.sets nS).1,
          s.exerciseId < nE + 1 := by
        intro s hs
        rcases List.mem_append.mp hs with hs | hs
        · exact lt_trans (hbase s hs) (Nat.lt_succ_self nE)
        · rw [insertSets_exerciseId nE now a.sets nS s hs]
          exact Nat.lt_succ_self nE
      have := ih (nE + 1) (insertSets nE now a.sets nS).2
        (base ++ (insertSets nE now a.sets nS).1) hbase2
      simp only [List.filter_append, List.append_assoc] at this ⊢
      exact this

/- Claim C2 fixtures: create a strength workout with Squat, then replace
its children with Bench. -/

/-- Insert payload of a strength workout. -/
def c2WorkoutInsert : InsertWorkout :=
  { planId := none, planDayId := none, type := "strength",
    workoutType := some ("strength"), duration := 60, distance := none,
    caloriesBurned := none, notes := none, tags := none, date := 0 }

/-- Exercise payload Squat with one set of 5 reps at weight 100. -/
def c2SquatInput : ExerciseInput :=
  { name := "Squat", category := none,
    sets := [{ setNumber := 1, reps := 5, weight := some 100, isWarmup := none }] }

/-- Exercise payload Bench with one set of 8 reps at weight 60. -/
def c2BenchInput : ExerciseInput :=
  { name := "Bench", category := none,
    sets := [{ setNumber := 1, reps := 8, weight := some 60, isWarmup := none }] }

/-- Update payload carrying workoutType strength and nothing else. -/
def c2Patch : WorkoutPatch :=
  { planId := none, planDayId := none, type := none,
    workoutType := some ("strength"), duration := none, distance := none,
    caloriesBurned := none, notes := none, tags := none, date := none }

/-- Store after user 1 creates the strength workout with Squat. -/
def c2State1 : Storage :=
  (createWorkout emptyStorage 1 c2WorkoutInsert (some [c2SquatInput]) 100).2

/-- Store after user 1 replaces the children of workout 1 with Bench. -/
def c2State2 : Storage :=
  (updateWorkout c2State1 1 1 c2Patch (some [c2BenchInput]) 200).2

/-- C2: updateWorkout on a strength workout owned by (id, userId), with
workoutType "strength" and a replacement exercise list, first removes every
set of every exercise currently owned by the workout and those exercises
themselves, then recreates children from the supplied data; afterwards the
children of the workout are exactly the supplied ones, no old child
exercise id nor any set pointing at one survives anywhere in storage, and
in the concrete Squat to Bench scenario the whole store ends up holding
only the Bench exercise with its single 8-rep set. -/
theorem updateWorkout_strength_replaces (σ : Storage) (id userId : Nat)
    (patch : WorkoutPatch) (l : List ExerciseInput) (now : Timestamp)
    (hex : ∃ w ∈ σ.workouts, w.id = id ∧ w.userId = userId ∧ w.workoutType = "strength")
    (hty : patch.workoutType = some ("strength"))
    (hne : l ≠ [])
    (hEx : ∀ e ∈ σ.exercises, e.id < σ.nextExerciseId)
    (hSet : ∀ s ∈ σ.sets, s.exerciseId < σ.nextExerciseId)
    (hNodup : (σ.exercises.map (fun e => e.id)).Nodup) :
    (((updateWorkout σ id userId patch (some l) now).2.exercises.filter
        (fun e => e.workoutId == id)).map (fun e =>
          (e.name, (((updateWorkout σ id userId patch (some l) now).2.sets.filter
            (fun s => s.exerciseId == e.id)).map (fun s => (s.setNumber, s.reps, s.weight)))))
      = l.map (fun e => (e.name, e.sets.map (fun s => (s.setNumber, s.reps, s.weight)))))
    ∧ (∀ e0 ∈ σ.exercises, e0.workoutId = id →
        (∀ e ∈ (updateWorkout σ id userId patch (some l) now).2.exercises, e.id ≠ e0.id)
        ∧ (∀ s ∈ (updateWorkout σ id userId patch (some l) now).2.sets,
            s.exerciseId ≠ e0.id))
    ∧ (c2State2.exercises.map (fun e => e.name) = ["Bench"]
        ∧ c2State2.sets.map (fun s => (s.setNumber, s.reps, s.weight))
          = [(1, 8, some 60)]) := by
  -- the owner-scoped select succeeds
  obtain ⟨w, hwmem, hwid, hwuser, _⟩ := hex
  have hmemf : w ∈ σ.workouts.filter (fun w => w.id == id && w.userId == userId) := by
    refine List.mem_filter.mpr ⟨hwmem, ?_⟩
    simp [hwid, hwuser]
  cases hh : (σ.workouts.filter (fun w => w.id == id && w.userId == userId)).head? with
  | none =>
    rw [List.head?_eq_none_iff] at hh
    rw [hh] at hmemf
    simp at hmemf
  | some w0 =>
    have hw0mem : w0 ∈ σ.workouts.filter (fun w => w.id == id && w.userId == userId) := by
      cases hfl : σ.workouts.filter (fun w => w.id == id && w.userId == userId) with
      | nil => rw [hfl] at hh; simp at hh
      | cons a t =>
        rw [hfl] at hh
        simp only [List.head?_cons, Option.some.injEq] at hh
        rw [← hh]
        exact List.mem_cons_self a t
    have hw0id : w0.id = id := by
      have := (List.mem_filter.mp hw0mem).2
      simp only [Bool.and_eq_true, beq_iff_eq] at this
      exact this.1
    -- evaluate updateWorkout on the strength branch
    have hcond : (patch.workoutType == some ("strength")) = true := by
      simp [hty]
    simp only [updateWorkout, hh, hcond, if_true]
    have hkeptEx : (σ.exercises.filter (fun e => !(e.workoutId == id))).filter
        (fun e => e.workoutId == id) = [] := by
      refine List.filter_eq_nil_iff.mpr (fun e he => ?_)
      have := (List.mem_filter.mp he).2
      simp only [Bool.not_eq_eq_eq_not, Bool.not_true, beq_eq_false_iff_ne] at this ⊢
      simp [this]
    refine ⟨?_, ?_, by decide, by decide⟩
    · -- children read back as the supplied list
      have hfresh : ∀ s ∈ σ.sets.filter (fun s =>
          !(((σ.exercises.filter (fun e => e.workoutId == id)).map
            (fun e => e.id)).contains s.exerciseId)), s.exerciseId < σ.nextExerciseId := by
        intro s hs
        exact hSet s (List.mem_filter.mp hs).1
      have hreport := insertExercises_report w0.id now l σ.nextExerciseId σ.nextSetId
        (σ.sets.filter (fun s =>
          !(((σ.exercises.filter (fun e => e.workoutId == id)).map
            (fun e => e.id)).contains s.exerciseId))) hfresh
      have hnewEx : (insertExercises w0.id now l σ.nextExerciseId σ.nextSetId).1.filter
          (fun e => e.workoutId == id)
          = (insertExercises w0.id now l σ.nextExerciseId σ.nextSetId).1 := by
        refine List.filter_eq_self.mpr (fun e he => ?_)
        have := (insertExercises_exercise_facts w0.id now l σ.nextExerciseId
          σ.nextSetId e he).1
        simp [this, hw0id]
      simp only [List.filter_append, hkeptEx, List.nil_append, hnewEx] at hreport ⊢
      exact hreport
    · -- old children and their sets are gone everywhere
      intro e0 he0 he0wid
      have he0lt : e0.id < σ.nextExerciseId := hEx e0 he0
      constructor
      · intro e he
        rcases List.mem_append.mp he with he | he
        · -- survivor of the delete phase: a different workout, so by id
          -- uniqueness a different id
          have hmem := (List.mem_filter.mp he).1
          have hnotw := (List.mem_filter.mp he).2
          intro heq
          have : e = e0 := List.inj_on_of_nodup_map hNodup hmem he0 heq
          rw [this] at hnotw
          simp [he0wid] at hnotw
        · -- freshly created: id at least the old counter
          have := (insertExercises_exercise_facts w0.id now l σ.nextExerciseId
            σ.nextSetId e he).2
          omega
      · intro s hs
        rcases List.mem_append.mp hs with hs | hs
        · -- survivor of the delete phase: filtered against the old child ids
          intro heq
          have hnot := (List.mem_filter.mp hs).2
          simp only [Bool.not_eq_eq_eq_not, Bool.not_true, List.contains_eq_any_beq,
            List.any_eq_false] at hnot
          have hmm : e0.id ∈ (σ.exercises.filter (fun e => e.workoutId == id)).map
              (fun e => e.id) := by
            refine List.mem_map.mpr ⟨e0, ?_, rfl⟩
            refine List.mem_filter.mpr ⟨he0, ?_⟩
            simp [he0wid]
          have := hnot e0.id hmm
          simp [heq] at this
        · -- freshly created: points at a fresh exercise id
          have := insertExercises_set_facts w0.id now l σ.nextExerciseId
            σ.nextSetId s hs
          omega

/-- Witness for C2: the concrete Squat to Bench replacement, obtained from
the main theorem at the concrete store. -/
theorem updateWorkout_strength_replaces_witness :
    c2State2.exercises.map (fun e => e.name) = ["Bench"]
    ∧ c2State2.sets.map (fun s => (s.setNumber, s.reps, s.weight))
      = [(1, 8, some 60)] :=
  (updateWorkout_strength_replaces c2State1 1 1 c2Patch [c2BenchInput] 200
    (by decide) (by decide) (by decide) (by decide) (by decide) (by decide)).2.2

/-- Generic helper: a filter known to contain an element has a head. -/
theorem filter_head_exists {α : Type} (l : List α) (p : α → Bool) (x : α)
    (hx : x ∈ l) (hpx : p x = true) :
    ∃ y ∈ l.filter p, (l.filter p).head? = some y := by
  have hmem : x ∈ l.filter p := List.mem_filter.mpr ⟨hx, hpx⟩
  cases hfl : l.filter p with
  | nil => rw [hfl] at hmem; simp at hmem
  | cons a t => exact ⟨a, List.mem_cons_self a t, rfl⟩

/-- Patch used by the C10 witness: no workoutType field, one plain field. -/
def c10Patch : WorkoutPatch :=
  { planId := none, planDayId := none, type := none, workoutType := none,
    duration := some 45, distance := none, caloriesBurned := none,
    notes := none, tags := none, date := none }

/-- C10: updateWorkout on an existing workout owned by (id, userId) whose
partial attributes do not carry workoutType = "strength" leaves the
exercises and sets tables (and their id counters) completely untouched,
even when a replacement exercise list is supplied, and rewrites only the
matching workout row through the supplied fields. -/
theorem updateWorkout_non_strength_frame (σ : Storage) (id userId : Nat)
    (patch : WorkoutPatch) (exerciseData : Option (List ExerciseInput))
    (now : Timestamp)
    (hex : ∃ w ∈ σ.workouts, w.id = id ∧ w.userId = userId)
    (hty : patch.workoutType ≠ some ("strength")) :
    (updateWorkout σ id userId patch exerciseData now).2.exercises = σ.exercises
    ∧ (updateWorkout σ id userId patch exerciseData now).2.sets = σ.sets
    ∧ (updateWorkout σ id userId patch exerciseData now).2.nextExerciseId
      = σ.nextExerciseId
    ∧ (updateWorkout σ id userId patch exerciseData now).2.nextSetId = σ.nextSetId
    ∧ (updateWorkout σ id userId patch exerciseData now).2.workouts
      = σ.workouts.map (fun w =>
          if w.id == id && w.userId == userId then applyWorkoutPatch patch w else w) := by
  obtain ⟨w, hwmem, hwid, hwuser⟩ := hex
  obtain ⟨w0, hw0mem, hh⟩ := filter_head_exists σ.workouts
    (fun w => w.id == id && w.userId == userId) w hwmem (by simp [hwid, hwuser])
  have hcond : (patch.workoutType == some ("strength")) = false := by
    simpa using hty
  cases exerciseData with
  | none => simp [updateWorkout, hh]
  | some exData => simp [updateWorkout, hh, hcond]

/-- Witness for C10: updating the duration of the concrete strength
workout, with a replacement list supplied but no workoutType field, leaves
its Squat child and set untouched. -/
theorem updateWorkout_non_strength_frame_witness :
    (updateWorkout c2State1 1 1 c10Patch (some [c2BenchInput]) 300).2.exercises
      = c2State1.exercises
    ∧ (updateWorkout c2State1 1 1 c10Patch (some [c2BenchInput]) 300).2.sets
      = c2State1.sets
    ∧ (updateWorkout c2State1 1 1 c10Patch (some [c2BenchInput]) 300).2.nextExerciseId
      = c2State1.nextExerciseId
    ∧ (updateWorkout c2State1 1 1 c10Patch (some [c2BenchInput]) 300).2.nextSetId
      = c2State1.nextSetId
    ∧ (updateWorkout c2State1 1 1 c10Patch (some [c2BenchInput]) 300).2.workouts
      = c2State1.workouts.map (fun w =>
          if w.id == 1 && w.userId == 1 then applyWorkoutPatch c10Patch w else w) :=
  updateWorkout_non_strength_frame c2State1 1 1 c10Patch (some [c2BenchInput]) 300
    (by decide) (by decide)

/- Meal and plan partial updates and deletes (src/server/storage.ts). -/

/-- Partial meal attributes for `updateMeal`. -/
structure MealPatch where
  type : Option String
  foodItems : Option String
  calories : Option Nat
  protein : Option (Option ℚ)
  carbs : Option (Option ℚ)
  fat : Option (Option ℚ)
  notes : Option (Option String)
  date : Option Timestamp
deriving DecidableEq

/-- Drizzle `.set(meal)` semantics on a meal row. -/
def applyMealPatch (patch : MealPatch) (m : Meal) : Meal :=
  { m with
      type := patch.type.getD m.type,
      foodItems := patch.foodItems.getD m.foodItems,
      calories := patch.calories.getD m.calories,
      protein := patch.protein.getD m.protein,
      carbs := patch.carbs.getD m.carbs,
      fat := patch.fat.getD m.fat,
      notes := patch.notes.getD m.notes,
      date := patch.date.getD m.date }

/-- Embeds `DatabaseStorage.updateMeal` (src/server/storage.ts): updates
the row scoped to (id, userId), returning the updated row or an absence
value when nothing matches. -/
def updateMeal (σ : Storage) (id userId : Nat) (patch : MealPatch) :
    Option Meal × Storage :=
  match (σ.meals.filter (fun m => m.id == id && m.userId == userId)).head? with
  | none => (none, σ)
  | some m0 =>
    (some (applyMealPatch patch m0),
     { σ with meals := σ.meals.map (fun m =>
         if m.id == id && m.userId == userId then applyMealPatch patch m else m) })

/-- Embeds `DatabaseStorage.deleteMeal` (src/server/storage.ts): the
delete is scoped to (id, userId); the returned flag is rowCount > 0. -/
def deleteMeal (σ : Storage) (id userId : Nat) : Bool × Storage :=
  let removed := σ.meals.filter (fun m => m.id == id && m.userId == userId)
  (removed.length > 0,
   { σ with meals := σ.meals.filter (fun m => !(m.id == id && m.userId == userId)) })

/-- Partial plan attributes for `updateWorkoutPlan`. -/
structure WorkoutPlanPatch where
  name : Option String
  description : Option (Option String)
  daysPerWeek : Option Nat
  currentDayIndex : Option Nat
  lastWorkoutDate : Option (Option Timestamp)
  isActive : Option Bool
deriving DecidableEq

/-- Drizzle `.set(plan)` semantics on a plan row. -/
def applyWorkoutPlanPatch (patch : WorkoutPlanPatch) (p : WorkoutPlan) : WorkoutPlan :=
  { p with
      name := patch.name.getD p.name,
      description := patch.description.getD p.description,
      daysPerWeek := patch.daysPerWeek.getD p.daysPerWeek,
      currentDayIndex := patch.currentDayIndex.getD p.currentDayIndex,
      lastWorkoutDate := patch.lastWorkoutDate.getD p.lastWorkoutDate,
      isActive := patch.isActive.getD p.isActive }

/-- Embeds `DatabaseStorage.updateWorkoutPlan` (src/server/storage.ts):
updates the row scoped to (id, userId), returning the updated row or an
absence value when nothing matches. -/
def updateWorkoutPlan (σ : Storage) (id userId : Nat) (patch : WorkoutPlanPatch) :
    Option WorkoutPlan × Storage :=
  match (σ.workoutPlans.filter (fun p => p.id == id && p.userId == userId)).head? with
  | none => (none, σ)
  | some p0 =>
    (some (applyWorkoutPlanPatch patch p0),
     { σ with workoutPlans := σ.workoutPlans.map (fun p =>
         if p.id == id && p.userId == userId then applyWorkoutPlanPatch patch p else p) })

/-- Embeds `DatabaseStorage.deleteWorkoutPlan` (src/server/storage.ts)
plus the referential actions of src/shared/schema.ts: the delete is scoped
to (id, userId); day rows of deleted plans are cascade-deleted; workouts
referencing a deleted plan or a deleted day get that reference set to
null; the returned flag is rowCount > 0. -/
def deleteWorkoutPlan (σ : Storage) (id userId : Nat) : Bool × Storage :=
  let removed := σ.workoutPlans.filter (fun p => p.id == id && p.userId == userId)
  let removedIds := removed.map (fun p => p.id)
  let keptPlans := σ.workoutPlans.filter (fun p => !(p.id == id && p.userId == userId))
  let removedDayIds := (σ.workoutPlanDays.filter
    (fun d => removedIds.contains d.planId)).map (fun d => d.id)
  let keptDays := σ.workoutPlanDays.filter (fun d => !(removedIds.contains d.planId))
  let adjustedWorkouts := σ.workouts.map (fun w =>
    let w1 := if (w.planId.map (fun pid => removedIds.contains pid)).getD false
      then { w with planId := none } else w
    if (w1.planDayId.map (fun did => removedDayIds.contains did)).getD false
      then { w1 with planDayId := none } else w1)
  (removed.length > 0,
   { σ with workoutPlans := keptPlans, workoutPlanDays := keptDays,
            workouts := adjustedWorkouts })

/-- Helper: mapping a constant false over an Option and defaulting to
false is false. -/
theorem optmap_false_getD {α : Type} (o : Option α) :
    (Option.map (fun _ => (false : Bool)) o).getD false = false := by
  cases o <;> rfl

/-- C7: an id not owned by the requesting user makes every owner-scoped
delete return false and every owner-scoped update return an absence value,
with the whole store unchanged, for workouts, meals and workout plans. -/
theorem owner_scoped_not_found (σ : Storage) (id userId : Nat)
    (wpatch : WorkoutPatch) (exerciseData : Option (List ExerciseInput))
    (now : Timestamp) (mpatch : MealPatch) (ppatch : WorkoutPlanPatch)
    (hw : ∀ w ∈ σ.workouts, w.id = id → w.userId ≠ userId)
    (hm : ∀ m ∈ σ.meals, m.id = id → m.userId ≠ userId)
    (hp : ∀ p ∈ σ.workoutPlans, p.id = id → p.userId ≠ userId) :
    ((deleteWorkout σ id userId).1 = false ∧ (deleteWorkout σ id userId).2 = σ)
    ∧ ((updateWorkout σ id userId wpatch exerciseData now).1 = none
        ∧ (updateWorkout σ id userId wpatch exerciseData now).2 = σ)
    ∧ ((deleteMeal σ id userId).1 = false ∧ (deleteMeal σ id userId).2 = σ)
    ∧ ((updateMeal σ id userId mpatch).1 = none ∧ (updateMeal σ id userId mpatch).2 = σ)
    ∧ ((deleteWorkoutPlan σ id userId).1 = false ∧ (deleteWorkoutPlan σ id userId).2 = σ)
    ∧ ((updateWorkoutPlan σ id userId ppatch).1 = none
        ∧ (updateWorkoutPlan σ id userId ppatch).2 = σ) := by
  have hwfil : σ.workouts.filter (fun w => w.id == id && w.userId == userId) = [] := by
    refine List.filter_eq_nil_iff.mpr (fun w hmem => ?_)
    have := hw w hmem
    simp only [Bool.and_eq_true, beq_iff_eq]
    exact fun h => this h.1 h.2
  have hmfil : σ.meals.filter (fun m => m.id == id && m.userId == userId) = [] := by
    refine List.filter_eq_nil_iff.mpr (fun m hmem => ?_)
    have := hm m hmem
    simp only [Bool.and_eq_true, beq_iff_eq]
    exact fun h => this h.1 h.2
  have hpfil : σ.workoutPlans.filter (fun p => p.id == id && p.userId == userId) = [] := by
    refine List.filter_eq_nil_iff.mpr (fun p hmem => ?_)
    have := hp p hmem
    simp only [Bool.and_eq_true, beq_iff_eq]
    exact fun h => this h.1 h.2
  have hwkeep : σ.workouts.filter (fun w => !(w.id == id && w.userId == userId))
      = σ.workouts := by
    refine List.filter_eq_self.mpr (fun w hmem => ?_)
    have := hw w hmem
    simp only [Bool.not_eq_eq_eq_not, Bool.not_true, Bool.and_eq_false_iff,
      beq_eq_false_iff_ne]
    by_cases hid : w.id = id
    · exact Or.inr (this hid)
    · exact Or.inl hid
  have hmkeep : σ.meals.filter (fun m => !(m.id == id && m.userId == userId))
      = σ.meals := by
    refine List.filter_eq_self.mpr (fun m hmem => ?_)
    have := hm m hmem
    simp only [Bool.not_eq_eq_eq_not, Bool.not_true, Bool.and_eq_false_iff,
      beq_eq_false_iff_ne]
    by_cases hid : m.id = id
    · exact Or.inr (this hid)
    · exact Or.inl hid
  have hpkeep : σ.workoutPlans.filter (fun p => !(p.id == id && p.userId == userId))
      = σ.workoutPlans := by
    refine List.filter_eq_self.mpr (fun p hmem => ?_)
    have := hp p hmem
    simp only [Bool.not_eq_eq_eq_not, Bool.not_true, Bool.and_eq_false_iff,
      beq_eq_false_iff_ne]
    by_cases hid : p.id = id
    · exact Or.inr (this hid)
    · exact Or.inl hid
  refine ⟨⟨?_, ?_⟩, ⟨?_, ?_⟩, ⟨?_, ?_⟩, ⟨?_, ?_⟩, ⟨?_, ?_⟩, ⟨?_, ?_⟩⟩
  · simp [deleteWorkout, hwfil]
  · simp only [deleteWorkout, hwfil, List.map_nil]
    rw [hwkeep]
    simp
  · simp [updateWorkout, hwfil]
  · simp [updateWorkout, hwfil]
  · simp [deleteMeal, hmfil]
  · simp only [deleteMeal]
    rw [hmkeep]
  · simp [updateMeal, hmfil]
  · simp [updateMeal, hmfil]
  · simp [deleteWorkoutPlan, hpfil]
  · simp only [deleteWorkoutPlan, hpfil, List.map_nil]
    rw [hpkeep]
    simp [optmap_false_getD]
  · simp [updateWorkoutPlan, hpfil]
  · simp [updateWorkoutPlan, hpfil]

/- Claim C7 fixtures: rows that belong to user 2, requested by user 1. -/

/-- A workout owned by user 2. -/
def c7Workout : Workout :=
  { id := 1, userId := 2, planId := none, planDayId := none, type := "run",
    workoutType := "cardio", duration := 30, distance := none,
    caloriesBurned := none, notes := none, tags := none, date := 0, createdAt := 0 }

/-- A meal owned by user 2. -/
def c7Meal : Meal :=
  { id := 1, userId := 2, type := "lunch", foodItems := "rice", calories := 500,
    protein := none, carbs := none, fat := none, notes := none, date := 0,
    createdAt := 0 }

/-- A plan owned by user 2. -/
def c7Plan : WorkoutPlan :=
  { id := 1, userId := 2, name := "UL", description := none, daysPerWeek := 4,
    currentDayIndex := 0, lastWorkoutDate := none, isActive := true, createdAt := 0 }

/-- Store holding one workout, meal and plan, all owned by user 2. -/
def c7Storage : Storage :=
  { emptyStorage with
      workouts := [c7Workout], meals := [c7Meal], workoutPlans := [c7Plan],
      nextWorkoutId := 2, nextMealId := 2, nextPlanId := 2 }

/-- Empty meal patch. -/
def c7MealPatch : MealPatch :=
  { type := none, foodItems := none, calories := none, protein := none,
    carbs := none, fat := none, notes := none, date := none }

/-- Empty plan patch. -/
def c7PlanPatch : WorkoutPlanPatch :=
  { name := none, description := none, daysPerWeek := none,
    currentDayIndex := none, lastWorkoutDate := none, isActive := none }

/-- Witness for C7: user 1 deleting workout 1 (owned by user 2) gets false
and the store is untouched. -/
theorem owner_scoped_not_found_witness :
    (deleteWorkout c7Storage 1 1).1 = false ∧ (deleteWorkout c7Storage 1 1).2 = c7Storage :=
  (owner_scoped_not_found c7Storage 1 1 c10Patch none 0 c7MealPatch c7PlanPatch
    (by decide) (by decide) (by decide)).1

/- Stats aggregator (src/server/storage.ts getMealStats). -/

/-- JS Math.round: round half towards positive infinity. -/
def jsRound (q : ℚ) : ℤ := ⌊q + 1 / 2⌋

/-- The macro percentage record returned by getMealStats. -/
structure NutritionBreakdown where
  protein : ℤ
  carbs : ℤ
  fat : ℤ
deriving DecidableEq

/-- The record returned by getMealStats. -/
structure MealStats where
  totalMeals : Nat
  totalCalories : Nat
  avgCalories : ℤ
  nutritionBreakdown : NutritionBreakdown
deriving DecidableEq

/-- Embeds `DatabaseStorage.getMealStats` (src/server/storage.ts): over the
meals of the user dated within the trailing `days` window, computes count,
calorie sum, rounded calorie average (SQL avg is null-coalesced to 0 on an
empty window) and the macro percentage breakdown; the percentages are the
individually rounded shares of the three null-coalesced macro sums, with a
zero-total guard yielding all zeros. -/
def getMealStats (σ : Storage) (userId : Nat) (days : Nat) (now : Timestamp) : MealStats :=
  let since : Timestamp := now - (days : Int)
  let rows := σ.meals.filter (fun m => m.userId == userId && decide (since ≤ m.date))
  let totalCalories : Nat := (rows.map (fun m => m.calories)).sum
  let avgCalories : ℤ :=
    if rows.length = 0 then 0 else jsRound ((totalCalories : ℚ) / (rows.length : ℚ))
  let totalProtein : ℚ := (rows.map (fun m => m.protein.getD 0)).sum
  let totalCarbs : ℚ := (rows.map (fun m => m.carbs.getD 0)).sum
  let totalFat : ℚ := (rows.map (fun m => m.fat.getD 0)).sum
  let total := totalProtein + totalCarbs + totalFat
  let nutritionBreakdown : NutritionBreakdown :=
    if 0 < total then
      { protein := jsRound (totalProtein / total * 100),
        carbs := jsRound (totalCarbs / total * 100),
        fat := jsRound (totalFat / total * 100) }
    else { protein := 0, carbs := 0, fat := 0 }
  { totalMeals := rows.length, totalCalories := totalCalories,
    avgCalories := avgCalories, nutritionBreakdown := nutritionBreakdown }

/-- One meal with a gram of each macro, yielding breakdown 33/33/33. -/
def c6Meal : Meal :=
  { id := 1, userId := 1, type := "lunch", foodItems := "mix", calories := 25,
    protein := some 1, carbs := some 1, fat := some 1, notes := none, date := 0,
    createdAt := 0 }

/-- Store holding the single 33/33/33 meal of user 1. -/
def c6Storage : Storage :=
  { emptyStorage with meals := [c6Meal], nextMealId := 2 }

/-- C6: for nonnegative macro sums over the meal window, getMealStats
yields the all-zero breakdown when the three sums are all zero, and
otherwise each percentage equals round(100 x macro / (protein+carbs+fat));
the three percentages are rounded independently, so on the concrete
1g/1g/1g window the breakdown is 33/33/33, which does not sum to 100. -/
theorem getMealStats_breakdown_spec (σ : Storage) (userId days : Nat)
    (now : Timestamp) (P C F : ℚ)
    (hP : P = ((σ.meals.filter (fun m => m.userId == userId
        && decide ((now - (days : Int)) ≤ m.date))).map (fun m => m.protein.getD 0)).sum)
    (hC : C = ((σ.meals.filter (fun m => m.userId == userId
        && decide ((now - (days : Int)) ≤ m.date))).map (fun m => m.carbs.getD 0)).sum)
    (hF : F = ((σ.meals.filter (fun m => m.userId == userId
        && decide ((now - (days : Int)) ≤ m.date))).map (fun m => m.fat.getD 0)).sum)
    (hnn : 0 ≤ P ∧ 0 ≤ C ∧ 0 ≤ F) :
    ((P = 0 ∧ C = 0 ∧ F = 0) →
      (getMealStats σ userId days now).nutritionBreakdown = ⟨0, 0, 0⟩)
    ∧ (¬(P = 0 ∧ C = 0 ∧ F = 0) →
      (getMealStats σ userId days now).nutritionBreakdown
        = ⟨jsRound (100 * P / (P + C + F)), jsRound (100 * C / (P + C + F)),
           jsRound (100 * F / (P + C + F))⟩)
    ∧ ((getMealStats c6Storage 1 1 0).nutritionBreakdown = ⟨33, 33, 33⟩
        ∧ (getMealStats c6Storage 1 1 0).nutritionBreakdown.protein
          + (getMealStats c6Storage 1 1 0).nutritionBreakdown.carbs
          + (getMealStats c6Storage 1 1 0).nutritionBreakdown.fat ≠ 100) := by
  obtain ⟨hP0, hC0, hF0⟩ := hnn
  have hconc : (getMealStats c6Storage 1 1 0).nutritionBreakdown = ⟨33, 33, 33⟩ := by
    simp only [getMealStats, c6Storage, c6Meal, emptyStorage, jsRound]
    norm_num
  refine ⟨?_, ?_, hconc, by rw [hconc]; decide⟩
  · rintro ⟨h1, h2, h3⟩
    have htot : ¬(0 < P + C + F) := by
      rw [h1, h2, h3]
      simp
    simp only [getMealStats, ← hP, ← hC, ← hF] at htot ⊢
    rw [if_neg htot]
  · intro hnz
    have htot : 0 < P + C + F := by
      rcases lt_or_eq_of_le hP0 with h | h
      · linarith
      rcases lt_or_eq_of_le hC0 with h2 | h2
      · linarith
      rcases lt_or_eq_of_le hF0 with h3 | h3
      · linarith
      exact absurd ⟨h.symm, h2.symm, h3.symm⟩ hnz
    simp only [getMealStats, ← hP, ← hC, ← hF] at htot ⊢
    rw [if_pos htot]
    have hne0 : P + C + F ≠ 0 := ne_of_gt htot
    have e1 : P / (P + C + F) * 100 = 100 * P / (P + C + F) := by
      field_simp
      ring
    have e2 : C / (P + C + F) * 100 = 100 * C / (P + C + F) := by
      field_simp
      ring
    have e3 : F / (P + C + F) * 100 = 100 * F / (P + C + F) := by
      field_simp
      ring
    rw [e1, e2, e3]

/-- Witness for C6 at the concrete 1g/1g/1g store. -/
theorem getMealStats_breakdown_spec_witness :
    (getMealStats c6Storage 1 1 0).nutritionBreakdown = ⟨33, 33, 33⟩
    ∧ (getMealStats c6Storage 1 1 0).nutritionBreakdown.protein
      + (getMealStats c6Storage 1 1 0).nutritionBreakdown.carbs
      + (getMealStats c6Storage 1 1 0).nutritionBreakdown.fat ≠ 100 :=
  (getMealStats_breakdown_spec c6Storage 1 1 0 1 1 1
    (by simp [c6Storage, c6Meal, emptyStorage])
    (by simp [c6Storage, c6Meal, emptyStorage])
    (by simp [c6Storage, c6Meal, emptyStorage])
    (by norm_num)).2.2

/- Client strength-form set editing (src/unnamed/part_004 removeSet, both
occurrences are identical). -/

/-- One set row of the strength workout form state. -/
structure FormSet where
  setNumber : Nat
  reps : Nat
  weight : ℚ
  isWarmup : Bool
deriving DecidableEq

/-- Embeds the renumbering pass
`sets.forEach((set, index) => { set.setNumber = index + 1 })`. -/
def renumberSets : List FormSet → Nat → List FormSet
  | [], _ => []
  | s :: rest, index => { s with setNumber := index + 1 } :: renumberSets rest (index + 1)

/-- Embeds `removeSet` of the strength workout form
(src/unnamed/part_004): `sets.splice(setIndex, 1)` followed by the
renumbering pass. -/
def removeSet (sets : List FormSet) (setIndex : Nat) : List FormSet :=
  renumberSets (sets.eraseIdx setIndex) 0

/-- Renumbering assigns consecutive set numbers from index + 1 onward. -/
theorem renumberSets_numbers :
    ∀ (l : List FormSet) (index : Nat),
      (renumberSets l index).map (fun s => s.setNumber)
        = List.range' (index + 1) l.length := by
  intro l
  induction l with
  | nil => intro index; rfl
  | cons s rest ih =>
    intro index
    simp only [renumberSets, List.map_cons, List.length_cons, List.range']
    exact congrArg₂ List.cons rfl (ih (index + 1))

/-- Renumbering changes nothing but the set numbers. -/
theorem renumberSets_payload :
    ∀ (l : List FormSet) (index : Nat),
      (renumberSets l index).map (fun s => (s.reps, s.weight, s.isWarmup))
        = l.map (fun s => (s.reps, s.weight, s.isWarmup)) := by
  intro l
  induction l with
  | nil => intro index; rfl
  | cons s rest ih =>
    intro index
    simp only [renumberSets, List.map_cons]
    exact congrArg₂ List.cons rfl (ih (index + 1))

/-- Mapping commutes with removing one index. -/
theorem map_eraseIdx_comm {α β : Type} (f : α → β) :
    ∀ (l : List α) (k : Nat), (l.eraseIdx k).map f = (l.map f).eraseIdx k := by
  intro l
  induction l with
  | nil => intro k; cases k <;> rfl
  | cons a t ih =>
    intro k
    cases k with
    | zero => rfl
    | succ k =>
      simp only [List.eraseIdx_cons_succ, List.map_cons]
      exact congrArg₂ List.cons rfl (ih k)

/-- Renumbering keeps the length. -/
theorem renumberSets_length :
    ∀ (l : List FormSet) (index : Nat), (renumberSets l index).length = l.length := by
  intro l
  induction l with
  | nil => intro index; rfl
  | cons s rest ih =>
    intro index
    simp only [renumberSets, List.length_cons]
    exact congrArg Nat.succ (ih (index + 1))

/-- The concrete three-set form state of the C8 example, numbered 1..3. -/
def c8Sets : List FormSet :=
  [⟨1, 5, 0, false⟩, ⟨2, 6, 0, false⟩, ⟨3, 8, 0, false⟩]

/-- C8: on an exercise whose sets are numbered contiguously 1..N, removing
the set at a valid index renumbers the survivors back to contiguous
1..N-1, keeps them in their original relative order (the sequence of
payloads equals the original sequence with the removed entry dropped) and
drops the length by one; removing set number 2 from [1,2,3] leaves the
first and third sets renumbered [1,2]. -/
theorem removeSet_renumbers (sets : List FormSet) (setIndex : Nat)
    (hnum : sets.map (fun s => s.setNumber) = List.range' 1 sets.length)
    (hidx : setIndex < sets.length) :
    (removeSet sets setIndex).map (fun s => s.setNumber)
      = List.range' 1 (sets.length - 1)
    ∧ (removeSet sets setIndex).map (fun s => (s.reps, s.weight, s.isWarmup))
      = (sets.map (fun s => (s.reps, s.weight, s.isWarmup))).eraseIdx setIndex
    ∧ (removeSet sets setIndex).length = sets.length - 1
    ∧ (removeSet c8Sets 1).map (fun s => (s.setNumber, s.reps)) = [(1, 5), (2, 8)] := by
  have hlen : (sets.eraseIdx setIndex).length = sets.length - 1 :=
    List.length_eraseIdx_of_lt hidx
  refine ⟨?_, ?_, ?_, by decide⟩
  · rw [removeSet, renumberSets_numbers, hlen]
  · rw [removeSet, renumberSets_payload, map_eraseIdx_comm]
  · rw [removeSet, renumberSets_length, hlen]

/-- Witness for C8: removing set number 2 from the concrete [1,2,3]
exercise leaves sets numbered 1..2 with the original payload order. -/
theorem removeSet_renumbers_witness :
    (removeSet c8Sets 1).map (fun s => s.setNumber) = List.range' 1 (c8Sets.length - 1)
    ∧ (removeSet c8Sets 1).map (fun s => (s.reps, s.weight, s.isWarmup))
      = (c8Sets.map (fun s => (s.reps, s.weight, s.isWarmup))).eraseIdx 1
    ∧ (removeSet c8Sets 1).length = c8Sets.length - 1
    ∧ (removeSet c8Sets 1).map (fun s => (s.setNumber, s.reps)) = [(1, 5), (2, 8)] :=
  removeSet_renumbers c8Sets 1 (by decide) (by decide)

/- Exercise library lookup (src/server/storage.ts getExercises). -/

/-- Row of the `exercise_database` reference catalog.  The column list
follows spec section 3 and the uses in storage.ts and
scripts/seed-exercises.ts (the pgTable declaration itself is not under
src/): a stable string id, a name, optional force/level/mechanic/equipment
strings, muscle/instruction/image string lists and a category. -/
structure ExerciseDatabase where
  id : String
  name : String
  force : Option String
  level : Option String
  mechanic : Option String
  equipment : Option String
  primaryMuscles : List String
  secondaryMuscles : List String
  instructions : List String
  category : Option String
  images : List String
deriving DecidableEq

/-- Embeds the SQL pattern `ilike(column, %search%)`: case-insensitive
containment of the search text in the column value.  SQL wildcard
characters inside the search text are not given their ILIKE meaning. -/
def ilikeContains (pat s : String) : Bool :=
  decide (pat.data.map Char.toLower <:+: s.data.map Char.toLower)

/-- The alphabetical-by-name ordering used by `orderBy(exerciseDatabase.name)`. -/
def byNameLe (a b : ExerciseDatabase) : Prop := a.name ≤ b.name

instance : DecidableRel byNameLe :=
  fun a b => inferInstanceAs (Decidable (a.name ≤ b.name))

instance : IsTotal ExerciseDatabase byNameLe :=
  ⟨fun a b => le_total a.name b.name⟩

instance : IsTrans ExerciseDatabase byNameLe :=
  ⟨fun _ _ _ hab hbc => le_trans hab hbc⟩

/-- Embeds one `if (param) conditions.push(...)` step of getExercises: a
provided, JS-truthy (non-empty) string contributes its condition, an
absent or empty one contributes nothing. -/
def condOf (o : Option String) (mk : String → ExerciseDatabase → Bool) :
    List (ExerciseDatabase → Bool) :=
  match o with
  | some s => if s == "" then [] else [mk s]
  | none => []

/-- Embeds the conditions-array construction of getExercises: one entry
per provided filter, in source order.  The primaryMuscle condition is the
SQL `primaryMuscle = ANY(primaryMuscles)` membership test; equipment and
level are SQL equality, which a null column never satisfies. -/
def condList (search primaryMuscle equipment level : Option String) :
    List (ExerciseDatabase → Bool) :=
  condOf search (fun s r => ilikeContains s r.name || ilikeContains s r.id)
    ++ condOf primaryMuscle (fun m r => r.primaryMuscles.contains m)
    ++ condOf equipment (fun eqp r => r.equipment == some eqp)
    ++ condOf level (fun lv r => r.level == some lv)

/-- Embeds `DatabaseStorage.getExercises` (src/server/storage.ts): builds
the conditions array, then either filters by their conjunction, orders by
name and truncates, or — with no conditions — just orders and truncates. -/
def getExercises (catalog : List ExerciseDatabase)
    (search primaryMuscle equipment level : Option String) (limit : Nat) :
    List ExerciseDatabase :=
  let conditions := condList search primaryMuscle equipment level
  if conditions.length > 0 then
    (List.insertionSort byNameLe
      (catalog.filter (fun r => conditions.all (fun c => c r)))).take limit
  else
    (List.insertionSort byNameLe catalog).take limit

/-- Modelled from the spec (section 4.4 Search): the conjunction of all
provided filters — free text case-insensitively against name OR id,
primaryMuscle by membership, equipment and level by equality — where an
absent (or JS-falsy empty) filter accepts every row. -/
def specExerciseFilter (search primaryMuscle equipment level : Option String)
    (r : ExerciseDatabase) : Bool :=
  (match search with
   | some s => if s == "" then true else ilikeContains s r.name || ilikeContains s r.id
   | none => true)
  && (match primaryMuscle with
      | some m => if m == "" then true else r.primaryMuscles.contains m
      | none => true)
  && (match equipment with
      | some eqp => if eqp == "" then true else r.equipment == some eqp
      | none => true)
  && (match level with
      | some lv => if lv == "" then true else r.level == some lv
      | none => true)

/-- The conjunction of the built conditions is the spec filter. -/
theorem condList_all_eq_spec (search primaryMuscle equipment level : Option String)
    (r : ExerciseDatabase) :
    (condList search primaryMuscle equipment level).all (fun c => c r)
      = specExerciseFilter search primaryMuscle equipment level r := by
  cases search <;> cases primaryMuscle <;> cases equipment <;> cases level <;>
    simp only [condList, condOf, specExerciseFilter] <;> (try split_ifs) <;>
    simp_all [List.all_append, Bool.and_assoc]

/-- C9: getExercises returns exactly the catalog rows satisfying the
conjunction of all provided filters, ordered alphabetically by name and
truncated to the limit; the result is sorted by name and no longer than
the limit, and with no filters it is the first `limit` rows of the
alphabetically ordered catalog. -/
theorem getExercises_spec (catalog : List ExerciseDatabase)
    (search primaryMuscle equipment level : Option String) (limit : Nat) :
    getExercises catalog search primaryMuscle equipment level limit
      = (List.insertionSort byNameLe
          (catalog.filter (specExerciseFilter search primaryMuscle equipment level))).take
          limit
    ∧ List.Sorted byNameLe (getExercises catalog search primaryMuscle equipment level limit)
    ∧ (getExercises catalog search primaryMuscle equipment level limit).length ≤ limit
    ∧ getExercises catalog none none none none limit
      = (List.insertionSort byNameLe catalog).take limit := by
  have hmain : getExercises catalog search primaryMuscle equipment level limit
      = (List.insertionSort byNameLe
          (catalog.filter (specExerciseFilter search primaryMuscle equipment level))).take
          limit := by
    by_cases hc : (condList search primaryMuscle equipment level).length > 0
    · simp only [getExercises]
      rw [if_pos hc,
        List.filter_congr (fun r _ => condList_all_eq_spec search primaryMuscle
          equipment level r)]
    · have hnil : condList search primaryMuscle equipment level = [] :=
        List.eq_nil_of_length_eq_zero (by omega)
      have hall : ∀ r ∈ catalog,
          specExerciseFilter search primaryMuscle equipment level r = true := by
        intro r _
        rw [← condList_all_eq_spec, hnil]
        rfl
      simp only [getExercises]
      rw [if_neg hc, List.filter_eq_self.mpr hall]
  refine ⟨hmain, ?_, ?_, ?_⟩
  · rw [hmain]
    exact List.Pairwise.sublist (List.take_sublist _ _)
      (List.sorted_insertionSort byNameLe _)
  · rw [hmain]
    exact List.length_take_le _ _
  · simp [getExercises, condList, condOf]
